import Mathlib

/-!
Verification development for the `spk_tracker` crate: a script-pubkey
tracker built around a mergeable `ChangeSet`, a checkpoint chain, an
indexed transaction graph and a canonicalization view.  The tracker facade
(`src/lib.rs`) is embedded directly; the behaviour of the external
`bdk_chain` collaborators (changeset merging, chain updates,
canonicalization) is modelled from the specification, since their code is
not part of this repository.
-/

namespace SpkTrack

/-- Finite association data keyed by naturals: the shallow embedding of the
`BTreeMap` diffs.  A raw finite set of pairs; merge is right-biased
overwrite, as the spec describes. -/
abbrev NMap (α : Type) := Finset (ℕ × α)

/-- Keys occurring in an `NMap`. -/
def keysOf {α : Type} [DecidableEq α] (m : NMap α) : Finset ℕ :=
  m.image Prod.fst

/-- Modelled from the spec: the map-merge used by the diff types —
`self.extend(other)`, entries of `other` overwrite entries of `self` at
shared keys ("pure union/overwrite"). -/
def extendMap {α : Type} [DecidableEq α] (a b : NMap α) : NMap α :=
  b ∪ a.filter (fun p => p.1 ∉ keysOf b)

/-- Two maps agree wherever their keys overlap ("monotonically growing
facts" never re-assign a key to a different value). -/
def MapAgree {α : Type} (a b : NMap α) : Prop :=
  ∀ k v w, (k, v) ∈ a → (k, w) ∈ b → v = w

/-- A transaction: identifier, inputs (outpoints spent) and outputs
(value, script). -/
structure Tx where
  id : ℕ
  inputs : List (ℕ × ℕ)
  outputs : List (ℕ × ℕ)
deriving DecidableEq

/-- Modelled from the spec: the graph-diff of
`indexed_tx_graph::ChangeSet<ConfirmationBlockTime, ()>` — new
transactions, anchors (txid, height, block hash), last-seen / last-evicted
timestamps, and newly discovered relevant outputs.  Merge is union on the
set fields and overwrite on the map fields. -/
structure GraphDiff where
  txs : Finset Tx
  anchors : Finset (ℕ × ℕ × ℕ)
  lastSeen : NMap ℕ
  lastEvicted : NMap ℕ
  relevant : Finset ((ℕ × ℕ) × ℕ × ℕ)
deriving DecidableEq

def GraphDiff.empty : GraphDiff := ⟨∅, ∅, ∅, ∅, ∅⟩

def GraphDiff.merge (a b : GraphDiff) : GraphDiff :=
  ⟨a.txs ∪ b.txs, a.anchors ∪ b.anchors, extendMap a.lastSeen b.lastSeen,
    extendMap a.lastEvicted b.lastEvicted, a.relevant ∪ b.relevant⟩

/-- The crate's `ChangeSet` (src/lib.rs lines 17-22): an indexed-graph
diff, a local-chain diff (height maps to a hash, or to nothing when the
height was invalidated) and an optional network tag. -/
structure ChangeSet where
  indexedGraph : GraphDiff
  localChain : NMap (Option ℕ)
  network : Option ℕ
deriving DecidableEq

def ChangeSet.empty : ChangeSet := ⟨GraphDiff.empty, ∅, none⟩

/-- The crate's `Merge` impl (src/lib.rs lines 34-41): merge the graph
diffs, merge the chain diffs, and overwrite the network tag only when the
incoming one is present. -/
def ChangeSet.merge (a b : ChangeSet) : ChangeSet :=
  ⟨a.indexedGraph.merge b.indexedGraph, extendMap a.localChain b.localChain,
    match b.network with
    | some n => some n
    | none => a.network⟩

/-- The crate's `is_empty` (src/lib.rs lines 43-45): all three fields
empty. -/
def ChangeSet.isEmpty (c : ChangeSet) : Bool :=
  decide (c = ChangeSet.empty)

/-- The live state of the indexed transaction graph together with its
script-pubkey index: stored transactions, anchors (txid, height, hash),
last-seen / last-evicted timestamps, watched scripts and the indexed
(outpoint, txout) entries. -/
structure GraphState where
  txs : Finset Tx
  anchors : Finset (ℕ × ℕ × ℕ)
  lastSeen : NMap ℕ
  lastEvicted : NMap ℕ
  watched : Finset ℕ
  indexed : Finset ((ℕ × ℕ) × ℕ × ℕ)
deriving DecidableEq

def GraphState.empty : GraphState := ⟨∅, ∅, ∅, ∅, ∅, ∅⟩

/-- Outpoints currently known to the script index. -/
def GraphState.indexedOutpoints (g : GraphState) : Finset (ℕ × ℕ) :=
  g.indexed.image Prod.fst

/-- Index entries for a transaction's outputs whose script is watched. -/
def txIndexEntries (tx : Tx) (watched : Finset ℕ) :
    Finset ((ℕ × ℕ) × ℕ × ℕ) :=
  (tx.outputs.enum.filterMap (fun p =>
    if p.2.2 ∈ watched then some ((tx.id, p.1), p.2) else none)).toFinset

/-- Modelled from the spec: a transaction is relevant when one of its
outputs pays a watched script or one of its inputs spends an indexed
outpoint. -/
def GraphState.relevantTx (g : GraphState) (tx : Tx) : Prop :=
  (∃ o ∈ tx.outputs, o.2 ∈ g.watched) ∨
    ∃ i ∈ tx.inputs, i ∈ g.indexedOutpoints

instance instDecidableRelevantTx (g : GraphState) (tx : Tx) :
    Decidable (g.relevantTx tx) := by
  unfold GraphState.relevantTx
  infer_instance

/-- The transaction has an anchor recorded (it was confirmed in some
block, canonical or not). -/
def GraphState.hasAnchor (g : GraphState) (txid : ℕ) : Prop :=
  ∃ a ∈ g.anchors, a.1 = txid

instance instDecidableHasAnchor (g : GraphState) (txid : ℕ) :
    Decidable (g.hasAnchor txid) := by
  unfold GraphState.hasAnchor
  infer_instance

/-- Modelled from the spec: `apply_block_relevant` — scan the block in
order; every relevant transaction is stored, indexed and anchored at the
block's (height, hash).  Returns the new graph and the produced diff. -/
def applyBlockRelevant (g : GraphState) (block : List Tx) (height bhash : ℕ) :
    GraphState × GraphDiff :=
  block.foldl
    (fun acc tx =>
      if acc.1.relevantTx tx then
        let entries := txIndexEntries tx acc.1.watched
        (⟨insert tx acc.1.txs, insert (tx.id, height, bhash) acc.1.anchors,
            acc.1.lastSeen, acc.1.lastEvicted, acc.1.watched,
            acc.1.indexed ∪ entries⟩,
          ⟨insert tx acc.2.txs, insert (tx.id, height, bhash) acc.2.anchors,
            acc.2.lastSeen, acc.2.lastEvicted, acc.2.relevant ∪ entries⟩)
      else acc)
    (g, GraphDiff.empty)

/-- Modelled from the spec: `batch_insert_relevant_unconfirmed` — store
each relevant transaction as unconfirmed with its last-seen timestamp. -/
def batchInsertUnconfirmed (g : GraphState) (update : List (Tx × ℕ)) :
    GraphState × GraphDiff :=
  update.foldl
    (fun acc p =>
      if acc.1.relevantTx p.1 then
        let entries := txIndexEntries p.1 acc.1.watched
        (⟨insert p.1 acc.1.txs, acc.1.anchors,
            extendMap acc.1.lastSeen {(p.1.id, p.2)}, acc.1.lastEvicted,
            acc.1.watched, acc.1.indexed ∪ entries⟩,
          ⟨insert p.1 acc.2.txs, acc.2.anchors,
            extendMap acc.2.lastSeen {(p.1.id, p.2)}, acc.2.lastEvicted,
            acc.2.relevant ∪ entries⟩)
      else acc)
    (g, GraphDiff.empty)

/-- Modelled from the spec: `batch_insert_relevant_evicted_at` — mark a
stored relevant unconfirmed transaction as evicted at the given time; a
confirmed (anchored) transaction is never evicted by this path. -/
def batchInsertEvicted (g : GraphState) (evicted : List (ℕ × ℕ)) :
    GraphState × GraphDiff :=
  evicted.foldl
    (fun acc p =>
      if (∃ tx ∈ acc.1.txs, tx.id = p.1 ∧ acc.1.relevantTx tx) ∧
          ¬ acc.1.hasAnchor p.1 then
        (⟨acc.1.txs, acc.1.anchors, acc.1.lastSeen,
            extendMap acc.1.lastEvicted {p}, acc.1.watched, acc.1.indexed⟩,
          ⟨acc.2.txs, acc.2.anchors, acc.2.lastSeen,
            extendMap acc.2.lastEvicted {p}, acc.2.relevant⟩)
      else acc)
    (g, GraphDiff.empty)

/-- Modelled from the spec: full recomputation of the index over the
stored transactions against the current watched scripts. -/
def GraphState.computeIndexed (g : GraphState) : Finset ((ℕ × ℕ) × ℕ × ℕ) :=
  g.txs.biUnion (fun tx => txIndexEntries tx g.watched)

/-- The checkpoint chain: a finite set of (height, hash) checkpoints. -/
abbrev Chain := Finset (ℕ × ℕ)

/-- Modelled from the spec: `LocalChain::apply_update` — find the best
(height, hash) checkpoint common to the current chain and the candidate;
fail when there is none; otherwise replace everything above the common
ancestor with the candidate's checkpoints, reporting added checkpoints
and invalidated heights as a chain diff. -/
def applyUpdate (chain cand : Chain) : Option (Chain × NMap (Option ℕ)) :=
  if chain ∩ cand = ∅ then none
  else
    let anc := (chain ∩ cand).sup Prod.fst
    let newChain :=
      chain.filter (fun p => p.1 ≤ anc) ∪ cand.filter (fun p => anc < p.1)
    let added : NMap (Option ℕ) :=
      (cand.filter (fun p => anc < p.1)).image (fun p => (p.1, some p.2))
    let removed : NMap (Option ℕ) :=
      (chain.filter (fun p => anc < p.1 ∧ p.1 ∉ cand.image Prod.fst)).image
        (fun p => (p.1, none))
    some (newChain, added ∪ removed)

/-- The `From<local_chain::ChangeSet>` impl (src/lib.rs lines 48-55). -/
def chainCS (d : NMap (Option ℕ)) : ChangeSet := ⟨GraphDiff.empty, d, none⟩

/-- The `From<indexed_tx_graph::ChangeSet>` impl (src/lib.rs lines
57-64). -/
def graphCS (d : GraphDiff) : ChangeSet := ⟨d, ∅, none⟩

/-- The error conditions of the tracker (spec section 7). -/
inductive TrackerError where
  | chainConflict
  | missingNetwork
  | missingGenesis
  | keyDerivation
deriving DecidableEq

instance instDecidableEqExcept {ε α : Type} [DecidableEq ε] [DecidableEq α] :
    DecidableEq (Except ε α) :=
  fun a b =>
    match a, b with
    | Except.ok x, Except.ok y =>
      if h : x = y then isTrue (by rw [h])
      else isFalse (fun he => h (Except.ok.inj he))
    | Except.error x, Except.error y =>
      if h : x = y then isTrue (by rw [h])
      else isFalse (fun he => h (Except.error.inj he))
    | Except.ok _, Except.error _ => isFalse (fun he => Except.noConfusion he)
    | Except.error _, Except.ok _ => isFalse (fun he => Except.noConfusion he)

/-- The tracker facade (src/lib.rs lines 66-73): graph, chain, staged
changeset, volatile secrets keyed by script, and the network. -/
structure SpkTracker where
  graph : GraphState
  chain : Chain
  stage : ChangeSet
  secrets : NMap ℕ
  network : ℕ
deriving DecidableEq

/-- Modelled from the spec: `LocalChain::from_genesis_hash` — a chain
holding one genesis checkpoint at height 0, plus the changeset recording
that checkpoint. -/
def fromGenesisHash (g : ℕ) : Chain × NMap (Option ℕ) :=
  ({(0, g)}, {(0, some g)})

/-- `SpkTracker::new` (src/lib.rs lines 76-89): fresh graph, genesis
chain, and the genesis chain changeset merged into the empty stage. -/
def SpkTracker.new (network ghash : ℕ) : SpkTracker :=
  ⟨GraphState.empty, (fromGenesisHash ghash).1,
    ChangeSet.empty.merge (chainCS (fromGenesisHash ghash).2), ∅, network⟩

/-- `SpkTracker::take_stage` (src/lib.rs lines 113-115): return the stage
and reset it to empty. -/
def SpkTracker.takeStage (t : SpkTracker) : ChangeSet × SpkTracker :=
  (t.stage, {t with stage := ChangeSet.empty})

/-- `SpkTracker::reindex` (src/lib.rs lines 120-125), the underlying graph
reindex modelled from the spec: newly discovered relevance is the
recomputed index minus what is already indexed; the diff is staged and
the returned flag reports whether it was non-empty. -/
def SpkTracker.reindex (t : SpkTracker) : SpkTracker × Bool :=
  ({ t with
      graph := { t.graph with
        indexed :=
          t.graph.indexed ∪ (t.graph.computeIndexed \ t.graph.indexed) }
      stage := t.stage.merge
        (graphCS ⟨∅, ∅, ∅, ∅, t.graph.computeIndexed \ t.graph.indexed⟩) },
    !(graphCS ⟨∅, ∅, ∅, ∅, t.graph.computeIndexed \ t.graph.indexed⟩).isEmpty)

/-- Modelled from the spec: script derivation from secret key material;
derivation may fail (`KeyDerivationFailure`). -/
def deriveSpk (secret : ℕ) : Option ℕ :=
  if secret = 0 then none else some secret

/-- `SpkTracker::add_secret` (src/lib.rs lines 136-144): derive the
script, register it with the index, and remember the secret only when the
script is new.  The staged changeset is never touched. -/
def SpkTracker.addSecret (t : SpkTracker) (secret : ℕ) :
    SpkTracker × Except TrackerError Bool :=
  match deriveSpk secret with
  | none => (t, Except.error TrackerError.keyDerivation)
  | some spk =>
    if spk ∈ t.graph.watched then (t, Except.ok false)
    else
      ({ t with
          graph := { t.graph with watched := insert spk t.graph.watched }
          secrets := insert (spk, secret) t.secrets },
        Except.ok true)

/-- A block event: block body, height, block hash, and the checkpoint
update supplied alongside. -/
structure BlockEvent where
  block : List Tx
  height : ℕ
  bhash : ℕ
  checkpoint : Chain
deriving DecidableEq

/-- A mempool event: unconfirmed transactions with last-seen times, and
evicted txids with eviction times. -/
structure MempoolEvent where
  update : List (Tx × ℕ)
  evicted : List (ℕ × ℕ)
deriving DecidableEq

/-- `SpkTracker::consume_block_event` (src/lib.rs lines 175-183): apply
the block's relevant transactions and stage the graph diff; then try the
chain update — on conflict the error is returned with the graph effects
kept and the chain untouched, otherwise the chain diff is also staged. -/
def SpkTracker.consumeBlockEvent (t : SpkTracker) (ev : BlockEvent) :
    SpkTracker × Except TrackerError Unit :=
  let gp := applyBlockRelevant t.graph ev.block ev.height ev.bhash
  let stage1 := t.stage.merge (graphCS gp.2)
  match applyUpdate t.chain ev.checkpoint with
  | none =>
    ({t with graph := gp.1, stage := stage1},
      Except.error TrackerError.chainConflict)
  | some cc =>
    ({ t with
        graph := gp.1
        chain := cc.1
        stage := stage1.merge (chainCS cc.2) },
      Except.ok ())

/-- `SpkTracker::consume_mempool_event` (src/lib.rs lines 185-190): apply
the unconfirmed batch, stage its diff, then apply the evicted batch and
stage its diff; the function is total — there is no failure path. -/
def SpkTracker.consumeMempoolEvent (t : SpkTracker) (ev : MempoolEvent) :
    SpkTracker :=
  let p1 := batchInsertUnconfirmed t.graph ev.update
  let stage1 := t.stage.merge (graphCS p1.2)
  let p2 := batchInsertEvicted p1.1 ev.evicted
  {t with graph := p2.1, stage := stage1.merge (graphCS p2.2)}

/-- Modelled from the spec: `LocalChain::from_changeset` — rebuild the
checkpoint chain from a chain diff; fails when the diff holds no genesis
checkpoint at height 0. -/
def chainFromChangeSet (d : NMap (Option ℕ)) : Except TrackerError Chain :=
  if ∃ p ∈ d, p.1 = 0 ∧ p.2 ≠ none then
    Except.ok
      ((d.filter (fun p => p.2 ≠ none)).image (fun p => (p.1, p.2.getD 0)))
  else Except.error TrackerError.missingGenesis

/-- Modelled from the spec: `IndexedTxGraph::from_changeset` with a
default (empty) script index — restores stored transactions, anchors and
timestamps; the fresh index watches nothing. -/
def graphFromChangeSet (d : GraphDiff) : GraphState :=
  ⟨d.txs, d.anchors, d.lastSeen, d.lastEvicted, ∅, ∅⟩

/-- `SpkTracker::from_changeset` (src/lib.rs lines 91-108): rebuild the
graph, then the chain (whose failure propagates first, because the `?` on
the chain reconstruction runs before the network check inside the struct
literal), then require the network tag; secrets always start empty. -/
def SpkTracker.fromChangeSet (cs : ChangeSet) :
    Except TrackerError SpkTracker :=
  match chainFromChangeSet cs.localChain with
  | Except.error e => Except.error e
  | Except.ok chain =>
    match cs.network with
    | none => Except.error TrackerError.missingNetwork
    | some n =>
      Except.ok
        ⟨graphFromChangeSet cs.indexedGraph, chain, ChangeSet.empty, ∅, n⟩

/-- Modelled from the spec: the transaction is anchored in a block the
current chain still contains (confirmed-canonical). -/
def AnchoredOn (g : GraphState) (chain : Chain) (txid : ℕ) : Prop :=
  ∃ a ∈ g.anchors, a.1 = txid ∧ (a.2.1, a.2.2) ∈ chain

instance instDecidableAnchoredOn (g : GraphState) (chain : Chain) (txid : ℕ) :
    Decidable (AnchoredOn g chain txid) := by
  unfold AnchoredOn
  infer_instance

/-- Modelled from the spec: the transaction is in the unconfirmed view —
it has a last-seen time later than any recorded eviction. -/
def SeenValid (g : GraphState) (txid : ℕ) : Prop :=
  ∃ q ∈ g.lastSeen, q.1 = txid ∧ ∀ r ∈ g.lastEvicted, r.1 = txid → r.2 < q.2

instance instDecidableSeenValid (g : GraphState) (txid : ℕ) :
    Decidable (SeenValid g txid) := by
  unfold SeenValid
  infer_instance

/-- Two transactions conflict when they spend a common outpoint. -/
def Conflicts (tx tx' : Tx) : Prop :=
  ∃ i ∈ tx.inputs, i ∈ tx'.inputs

instance instDecidableConflicts (tx tx' : Tx) :
    Decidable (Conflicts tx tx') := by
  unfold Conflicts
  infer_instance

/-- Modelled from the spec: `tx` wins the unconfirmed tie-break against
the competitor `tx'` — whenever `tx'` has a last-seen time, `tx` has a
later one (txid breaking exact ties). -/
def BeatsSeen (g : GraphState) (tx tx' : Tx) : Prop :=
  ∀ q' ∈ g.lastSeen, q'.1 = tx'.id →
    ∃ q ∈ g.lastSeen, q.1 = tx.id ∧
      (q'.2 < q.2 ∨ (q'.2 = q.2 ∧ tx'.id < tx.id))

instance instDecidableBeatsSeen (g : GraphState) (tx tx' : Tx) :
    Decidable (BeatsSeen g tx tx') := by
  unfold BeatsSeen
  infer_instance

/-- Modelled from the spec: `tx` wins against the competitor `tx'` — the
competitor is not anchored on the chain (confirmed always wins over
unconfirmed) and loses the last-seen tie-break. -/
def WinsAgainst (g : GraphState) (chain : Chain) (tx tx' : Tx) : Prop :=
  ¬ AnchoredOn g chain tx'.id ∧ BeatsSeen g tx tx'

instance instDecidableWinsAgainst (g : GraphState) (chain : Chain)
    (tx tx' : Tx) : Decidable (WinsAgainst g chain tx tx') := by
  unfold WinsAgainst
  infer_instance

/-- Modelled from the spec: an unconfirmed transaction is canonical when
it is in the unconfirmed view and wins against every stored conflicting
competitor. -/
def UnconfCanonical (g : GraphState) (chain : Chain) (tx : Tx) : Prop :=
  SeenValid g tx.id ∧
    ∀ tx' ∈ g.txs, tx' ≠ tx → Conflicts tx tx' → WinsAgainst g chain tx tx'

instance instDecidableUnconfCanonical (g : GraphState) (chain : Chain)
    (tx : Tx) : Decidable (UnconfCanonical g chain tx) := by
  unfold UnconfCanonical
  infer_instance

/-- Modelled from the spec: canonical transactions — stored, and either
confirmed in a block on the current chain or canonical-unconfirmed. -/
def Canonical (g : GraphState) (chain : Chain) (tx : Tx) : Prop :=
  tx ∈ g.txs ∧ (AnchoredOn g chain tx.id ∨ UnconfCanonical g chain tx)

instance instDecidableCanonical (g : GraphState) (chain : Chain) (tx : Tx) :
    Decidable (Canonical g chain tx) := by
  unfold Canonical
  infer_instance

/-- The canonical transactions stored in the graph. -/
def canonicalTxs (g : GraphState) (chain : Chain) : Finset Tx :=
  g.txs.filter (fun tx => Canonical g chain tx)

/-- Outpoints spent by some canonical transaction. -/
def spentByCanonical (g : GraphState) (chain : Chain) : Finset (ℕ × ℕ) :=
  (canonicalTxs g chain).biUnion (fun tx => tx.inputs.toFinset)

/-- `SpkTracker::utxos` (src/lib.rs lines 151-158), the underlying
`filter_chain_unspents` modelled from the spec: keep each indexed output
whose producing transaction is canonical and which is not in the set of
outpoints spent by canonical transactions. -/
def SpkTracker.utxos (t : SpkTracker) : Finset ((ℕ × ℕ) × ℕ × ℕ) :=
  t.graph.indexed.filter (fun e =>
    e.1.1 ∈ (canonicalTxs t.graph t.chain).image Tx.id ∧
      e.1 ∉ spentByCanonical t.graph t.chain)

/-- A mutating operation performed between two drains of the stage. -/
inductive Op where
  | block (ev : BlockEvent)
  | mempool (ev : MempoolEvent)
  | reidx
  | secret (s : ℕ)

/-- Run one operation, discarding its return value. -/
def applyOp (t : SpkTracker) : Op → SpkTracker
  | Op.block ev => (t.consumeBlockEvent ev).1
  | Op.mempool ev => t.consumeMempoolEvent ev
  | Op.reidx => t.reindex.1
  | Op.secret s => (t.addSecret s).1

/-- The diffs an operation merges into the stage, in order. -/
def opDiffs (t : SpkTracker) : Op → List ChangeSet
  | Op.block ev =>
    match applyUpdate t.chain ev.checkpoint with
    | none => [graphCS (applyBlockRelevant t.graph ev.block ev.height ev.bhash).2]
    | some cc =>
      [graphCS (applyBlockRelevant t.graph ev.block ev.height ev.bhash).2,
        chainCS cc.2]
  | Op.mempool ev =>
    [graphCS (batchInsertUnconfirmed t.graph ev.update).2,
      graphCS (batchInsertEvicted (batchInsertUnconfirmed t.graph ev.update).1
        ev.evicted).2]
  | Op.reidx =>
    [graphCS ⟨∅, ∅, ∅, ∅, t.graph.computeIndexed \ t.graph.indexed⟩]
  | Op.secret _ => []

/-- Run a list of operations. -/
def applyOps (t : SpkTracker) (ops : List Op) : SpkTracker :=
  ops.foldl applyOp t

/-- All diffs produced across a list of operations. -/
def opsDiffs : SpkTracker → List Op → List ChangeSet
  | _, [] => []
  | t, o :: os => opDiffs t o ++ opsDiffs (applyOp t o) os

/-- A changeset recording hash 1 at genesis height 0. -/
def csA : ChangeSet := ⟨GraphDiff.empty, {(0, some 1)}, none⟩

/-- A changeset recording the conflicting hash 2 at genesis height 0. -/
def csB : ChangeSet := ⟨GraphDiff.empty, {(0, some 2)}, none⟩

/-- A changeset with a genesis checkpoint but no network tag. -/
def csNoNet : ChangeSet := ⟨GraphDiff.empty, {(0, some 5)}, none⟩

/-- A changeset with a genesis checkpoint and a network tag. -/
def csC7 : ChangeSet := ⟨GraphDiff.empty, {(0, some 5)}, some 3⟩

/-- The tracker reconstructed from `csC7`. -/
def trackerC7 : SpkTracker :=
  ⟨graphFromChangeSet GraphDiff.empty,
    ((csC7.localChain.filter (fun p => p.2 ≠ none)).image
      (fun p => (p.1, p.2.getD 0))),
    ChangeSet.empty, ∅, 3⟩

/-- Sample producing transaction paying the watched script 7. -/
def txP : Tx := ⟨1, [(0, 0)], [(100, 7)]⟩

/-- Sample spending transaction consuming txP's first output. -/
def txS : Tx := ⟨2, [(1, 0)], [(90, 9)]⟩

/-- A tracker watching script 7, with txP confirmed at height 1 (block
11) and its spender txS confirmed at height 2 (block 22). -/
def trackerC5 : SpkTracker :=
  ⟨⟨{txP, txS}, {(1, 1, 11), (2, 2, 22)}, ∅, ∅, {7}, {((1, 0), 100, 7)}⟩,
    {(0, 5), (1, 11), (2, 22)}, ChangeSet.empty, ∅, 0⟩

/-- A reorg event: an empty block at height 2 with hash 23, whose
checkpoint update replaces block 22 by block 23 above the shared
checkpoint (1, 11). -/
def eventC5 : BlockEvent := ⟨[], 2, 23, {(1, 11), (2, 23)}⟩

/-- The tracker after the reorg of `eventC5`. -/
def trackerC5' : SpkTracker := (trackerC5.consumeBlockEvent eventC5).1

/-- A deeper reorg event: the checkpoint update shares only genesis with
`trackerC5`'s chain and replaces height 1 by block 12, orphaning both the
producing block 11 and the spending block 22. -/
def eventCexC5 : BlockEvent := ⟨[], 1, 12, {(0, 5), (1, 12)}⟩

/-- The tracker after the deeper reorg of `eventCexC5`. -/
def trackerCex' : SpkTracker := (trackerC5.consumeBlockEvent eventCexC5).1

/-- A block event whose checkpoint shares no checkpoint with a fresh
genesis-5 chain. -/
def conflictEvent : BlockEvent := ⟨[], 1, 8, {(0, 6)}⟩

theorem mem_keysOf {α : Type} [DecidableEq α] {m : NMap α} {k : ℕ} :
    k ∈ keysOf m ↔ ∃ v, (k, v) ∈ m := by
  constructor
  · intro h
    rcases Finset.mem_image.mp h with ⟨⟨k', v⟩, hp, he⟩
    cases he
    exact ⟨v, hp⟩
  · rintro ⟨v, hv⟩
    exact Finset.mem_image.mpr ⟨(k, v), hv, rfl⟩

theorem mem_extendMap {α : Type} [DecidableEq α] {a b : NMap α} {p : ℕ × α} :
    p ∈ extendMap a b ↔ p ∈ b ∨ (p ∈ a ∧ p.1 ∉ keysOf b) := by
  simp [extendMap, Finset.mem_union, Finset.mem_filter]

theorem extendMap_self {α : Type} [DecidableEq α] (a : NMap α) :
    extendMap a a = a := by
  apply Finset.ext
  intro p
  rw [mem_extendMap]
  constructor
  · rintro (h | ⟨h, _⟩) <;> exact h
  · intro h
    exact Or.inl h

theorem keysOf_extendMap {α : Type} [DecidableEq α] (a b : NMap α) :
    keysOf (extendMap a b) = keysOf a ∪ keysOf b := by
  apply Finset.ext
  intro k
  simp only [Finset.mem_union, mem_keysOf]
  constructor
  · rintro ⟨v, hv⟩
    rcases mem_extendMap.mp hv with h | ⟨h, _⟩
    · exact Or.inr ⟨v, h⟩
    · exact Or.inl ⟨v, h⟩
  · rintro (⟨v, hv⟩ | ⟨v, hv⟩)
    · by_cases hk : k ∈ keysOf b
      · rcases mem_keysOf.mp hk with ⟨w, hw⟩
        exact ⟨w, mem_extendMap.mpr (Or.inl hw)⟩
      · exact ⟨v, mem_extendMap.mpr (Or.inr ⟨hv, hk⟩)⟩
    · exact ⟨v, mem_extendMap.mpr (Or.inl hv)⟩

theorem extendMap_assoc {α : Type} [DecidableEq α] (a b c : NMap α) :
    extendMap (extendMap a b) c = extendMap a (extendMap b c) := by
  apply Finset.ext
  intro p
  simp only [mem_extendMap, keysOf_extendMap, Finset.mem_union, not_or]
  tauto

theorem extendMap_empty_left {α : Type} [DecidableEq α] (b : NMap α) :
    extendMap ∅ b = b := by
  apply Finset.ext
  intro p
  rw [mem_extendMap]
  simp

theorem extendMap_empty_right {α : Type} [DecidableEq α] (a : NMap α) :
    extendMap a ∅ = a := by
  apply Finset.ext
  intro p
  rw [mem_extendMap]
  simp [keysOf]

theorem extendMap_comm_of_agree {α : Type} [DecidableEq α] {a b : NMap α}
    (h : MapAgree a b) : extendMap a b = extendMap b a := by
  apply Finset.ext
  rintro ⟨k, v⟩
  rw [mem_extendMap, mem_extendMap]
  constructor
  · rintro (hb | ⟨ha, hk⟩)
    · by_cases hka : k ∈ keysOf a
      · rcases mem_keysOf.mp hka with ⟨w, hw⟩
        have hvw : w = v := h k w v hw hb
        exact Or.inl (hvw ▸ hw)
      · exact Or.inr ⟨hb, hka⟩
    · exact Or.inl ha
  · rintro (ha | ⟨hb, hk⟩)
    · by_cases hkb : k ∈ keysOf b
      · rcases mem_keysOf.mp hkb with ⟨w, hw⟩
        have hvw : w = v := (h k v w ha hw).symm
        exact Or.inl (hvw ▸ hw)
      · exact Or.inr ⟨ha, hkb⟩
    · exact Or.inl hb

theorem graphDiff_merge_assoc (a b c : GraphDiff) :
    (a.merge b).merge c = a.merge (b.merge c) := by
  simp [GraphDiff.merge, Finset.union_assoc, extendMap_assoc]

theorem graphDiff_merge_self (a : GraphDiff) : a.merge a = a := by
  simp [GraphDiff.merge, Finset.union_self, extendMap_self]

theorem graphDiff_merge_empty_left (a : GraphDiff) :
    GraphDiff.empty.merge a = a := by
  simp [GraphDiff.merge, GraphDiff.empty, extendMap_empty_left]

theorem graphDiff_merge_empty_right (a : GraphDiff) :
    a.merge GraphDiff.empty = a := by
  simp [GraphDiff.merge, GraphDiff.empty, extendMap_empty_right]

theorem changeset_merge_assoc (a b c : ChangeSet) :
    (a.merge b).merge c = a.merge (b.merge c) := by
  cases hc : c.network <;> cases hb : b.network <;>
    simp [ChangeSet.merge, graphDiff_merge_assoc, extendMap_assoc, hb, hc]

theorem changeset_merge_idem (a : ChangeSet) : a.merge a = a := by
  cases ha : a.network <;>
  · simp [ChangeSet.merge, graphDiff_merge_self, extendMap_self, ha]
    rw [← ha]

theorem changeset_merge_empty_left (a : ChangeSet) :
    ChangeSet.empty.merge a = a := by
  cases ha : a.network <;>
  · simp [ChangeSet.merge, ChangeSet.empty, graphDiff_merge_empty_left,
      extendMap_empty_left, ha]
    rw [← ha]

theorem changeset_merge_empty_right (a : ChangeSet) :
    a.merge ChangeSet.empty = a := by
  simp [ChangeSet.merge, ChangeSet.empty, graphDiff_merge_empty_right,
    extendMap_empty_right]

theorem graphDiff_merge_comm_of_agree {a b : GraphDiff}
    (hs : MapAgree a.lastSeen b.lastSeen)
    (he : MapAgree a.lastEvicted b.lastEvicted) :
    a.merge b = b.merge a := by
  simp [GraphDiff.merge, Finset.union_comm, extendMap_comm_of_agree hs,
    extendMap_comm_of_agree he]

theorem applyUpdate_none {chain cand : Chain} (h : chain ∩ cand = ∅) :
    applyUpdate chain cand = none := by
  unfold applyUpdate
  rw [if_pos h]

theorem mem_utxos_iff (t : SpkTracker) (e : (ℕ × ℕ) × ℕ × ℕ) :
    e ∈ t.utxos ↔
      e ∈ t.graph.indexed ∧
        (∃ tx ∈ t.graph.txs, Canonical t.graph t.chain tx ∧ tx.id = e.1.1) ∧
        ¬ ∃ tx ∈ t.graph.txs, Canonical t.graph t.chain tx ∧ e.1 ∈ tx.inputs := by
  constructor
  · intro h
    unfold SpkTracker.utxos at h
    rw [Finset.mem_filter] at h
    obtain ⟨hi, hcan, hsp⟩ := h
    rw [Finset.mem_image] at hcan
    obtain ⟨tx, htxf, hid⟩ := hcan
    rw [canonicalTxs, Finset.mem_filter] at htxf
    refine ⟨hi, ⟨tx, htxf.1, htxf.2, hid⟩, ?_⟩
    rintro ⟨tx2, htx2, hc2, hin2⟩
    apply hsp
    rw [spentByCanonical, Finset.mem_biUnion]
    refine ⟨tx2, ?_, List.mem_toFinset.mpr hin2⟩
    rw [canonicalTxs, Finset.mem_filter]
    exact ⟨htx2, hc2⟩
  · rintro ⟨hi, ⟨tx, htx, hc, hid⟩, hsp⟩
    unfold SpkTracker.utxos
    rw [Finset.mem_filter]
    refine ⟨hi, ?_, ?_⟩
    · rw [Finset.mem_image]
      refine ⟨tx, ?_, hid⟩
      rw [canonicalTxs, Finset.mem_filter]
      exact ⟨htx, hc⟩
    · intro hmem
      rw [spentByCanonical, Finset.mem_biUnion] at hmem
      obtain ⟨tx2, htx2f, hin2⟩ := hmem
      rw [canonicalTxs, Finset.mem_filter] at htx2f
      exact hsp ⟨tx2, htx2f.1, htx2f.2, List.mem_toFinset.mp hin2⟩

/-- C3: when the supplied checkpoint update shares no checkpoint with the
current chain (no common ancestor), `consume_block_event` returns the
chain-conflict error, keeps the block's transaction-graph mutation with
its diff merged into the stage, and leaves the checkpoint chain
unchanged. -/
theorem block_event_chain_conflict (t : SpkTracker) (ev : BlockEvent)
    (hnc : t.chain ∩ ev.checkpoint = ∅) :
    (t.consumeBlockEvent ev).2 = Except.error TrackerError.chainConflict ∧
      (t.consumeBlockEvent ev).1.chain = t.chain ∧
      (t.consumeBlockEvent ev).1.graph =
        (applyBlockRelevant t.graph ev.block ev.height ev.bhash).1 ∧
      (t.consumeBlockEvent ev).1.stage =
        t.stage.merge
          (graphCS (applyBlockRelevant t.graph ev.block ev.height ev.bhash).2) := by
  unfold SpkTracker.consumeBlockEvent
  rw [applyUpdate_none hnc]
  exact ⟨rfl, rfl, rfl, rfl⟩

/-- C3 witness: a fresh genesis-5 tracker refuses a checkpoint update
claiming hash 6 at height 0. -/
theorem block_event_chain_conflict_witness :
    ((SpkTracker.new 0 5).consumeBlockEvent conflictEvent).2 =
        Except.error TrackerError.chainConflict ∧
      ((SpkTracker.new 0 5).consumeBlockEvent conflictEvent).1.chain =
        (SpkTracker.new 0 5).chain ∧
      ((SpkTracker.new 0 5).consumeBlockEvent conflictEvent).1.graph =
        (applyBlockRelevant (SpkTracker.new 0 5).graph conflictEvent.block
          conflictEvent.height conflictEvent.bhash).1 ∧
      ((SpkTracker.new 0 5).consumeBlockEvent conflictEvent).1.stage =
        (SpkTracker.new 0 5).stage.merge
          (graphCS (applyBlockRelevant (SpkTracker.new 0 5).graph
            conflictEvent.block conflictEvent.height conflictEvent.bhash).2) :=
  block_event_chain_conflict (SpkTracker.new 0 5) conflictEvent (by decide)

/-- C4: an indexed (relevant) output appears in `utxos()` iff its
producing transaction is canonical with respect to the current chain and
no canonical transaction spends it. -/
theorem utxos_characterization (t : SpkTracker) (e : (ℕ × ℕ) × ℕ × ℕ) :
    e ∈ t.utxos ↔
      e ∈ t.graph.indexed ∧
        (∃ tx ∈ t.graph.txs, Canonical t.graph t.chain tx ∧ tx.id = e.1.1) ∧
        ¬ ∃ tx ∈ t.graph.txs, Canonical t.graph t.chain tx ∧ e.1 ∈ tx.inputs :=
  mem_utxos_iff t e

/-- C5 (amended): after a successful `consume_block_event` (a reorg), a
relevant output reappears in `utxos()` when no canonical transaction
spends it after the reorg and its producing transaction is still
canonical after the reorg. -/
theorem utxo_resurrected_after_reorg (t : SpkTracker) (ev : BlockEvent)
    (t' : SpkTracker) (e : (ℕ × ℕ) × ℕ × ℕ)
    (_hok : t.consumeBlockEvent ev = (t', Except.ok ()))
    (hidx : e ∈ t'.graph.indexed)
    (hprod : ∃ tx ∈ t'.graph.txs, Canonical t'.graph t'.chain tx ∧ tx.id = e.1.1)
    (hspend : ∀ tx ∈ t'.graph.txs, e.1 ∈ tx.inputs →
      ¬ Canonical t'.graph t'.chain tx) :
    e ∈ t'.utxos := by
  refine (mem_utxos_iff t' e).mpr ⟨hidx, hprod, ?_⟩
  rintro ⟨tx, htx, hc, hin⟩
  exact hspend tx htx hin hc

/-- C5 witness: script 7's output (1, 0), spent by txS confirmed in block
22, reappears in the UTXO set after the reorg replacing block 22 by the
empty block 23 (the producing block 11 survives). -/
theorem utxo_resurrected_after_reorg_witness :
    ((1, 0), 100, 7) ∈ trackerC5'.utxos :=
  utxo_resurrected_after_reorg trackerC5 eventC5 trackerC5' ((1, 0), 100, 7)
    (by decide) (by decide) (by decide) (by decide)

/-- C5 counterexample: a reorg that orphans the producing block as well —
the update succeeds, afterwards no canonical transaction spends (1, 0)
(no canonical replacement spend exists), the output is still indexed as
relevant, and yet it does not reappear in `utxos()`, because its producer
lost its confirming block too. -/
theorem utxo_resurrection_cex :
    (trackerC5.consumeBlockEvent eventCexC5).2 = Except.ok () ∧
      (∀ tx ∈ trackerCex'.graph.txs, (1, 0) ∈ tx.inputs →
        ¬ Canonical trackerCex'.graph trackerCex'.chain tx) ∧
      ((1, 0), 100, 7) ∈ trackerCex'.graph.indexed ∧
      ((1, 0), 100, 7) ∉ trackerCex'.utxos := by decide

/-- C1 (amended): changeset merge is associative and idempotent for all
changesets; it is commutative on the indexed-graph and local-chain fields
provided the two changesets agree on every shared key of their map
components (as monotonically growing facts do) — with conflicting
assignments the later merge overwrites, so order matters. -/
theorem changeset_merge_algebra (a b c : ChangeSet) :
    (a.merge b).merge c = a.merge (b.merge c) ∧
      a.merge a = a ∧
      (MapAgree a.localChain b.localChain →
        MapAgree a.indexedGraph.lastSeen b.indexedGraph.lastSeen →
        MapAgree a.indexedGraph.lastEvicted b.indexedGraph.lastEvicted →
        (a.merge b).indexedGraph = (b.merge a).indexedGraph ∧
          (a.merge b).localChain = (b.merge a).localChain) :=
  ⟨changeset_merge_assoc a b c, changeset_merge_idem a,
    fun hc hs he =>
      ⟨graphDiff_merge_comm_of_agree hs he, extendMap_comm_of_agree hc⟩⟩

/-- C1 witness: the amended algebra applied to the genesis diff, the
empty changeset and a conflicting genesis diff, the agreement premises
discharged (the empty changeset shares no key with csA). -/
theorem changeset_merge_algebra_witness :
    (csA.merge ChangeSet.empty).merge csB =
        csA.merge (ChangeSet.empty.merge csB) ∧
      csA.merge csA = csA ∧
      (csA.merge ChangeSet.empty).indexedGraph =
        (ChangeSet.empty.merge csA).indexedGraph ∧
      (csA.merge ChangeSet.empty).localChain =
        (ChangeSet.empty.merge csA).localChain :=
  ⟨(changeset_merge_algebra csA ChangeSet.empty csB).1,
    (changeset_merge_algebra csA ChangeSet.empty csB).2.1,
    (changeset_merge_algebra csA ChangeSet.empty csB).2.2
      (fun k v w _ hw => absurd hw (by simp [ChangeSet.empty]))
      (fun k v w _ hw => absurd hw (by simp [ChangeSet.empty, GraphDiff.empty]))
      (fun k v w _ hw => absurd hw (by simp [ChangeSet.empty, GraphDiff.empty]))⟩

/-- C1 counterexample: with conflicting assignments at the shared height
0, the two merge orders yield different local-chain diffs — merge is not
commutative on arbitrary changesets. -/
theorem changeset_merge_comm_cex :
    (csA.merge csB).localChain ≠ (csB.merge csA).localChain := by decide

theorem applyOp_stage (t : SpkTracker) (o : Op) :
    (applyOp t o).stage = (opDiffs t o).foldl ChangeSet.merge t.stage := by
  cases o with
  | block ev =>
    unfold applyOp opDiffs SpkTracker.consumeBlockEvent
    cases h : applyUpdate t.chain ev.checkpoint <;> simp [h]
  | mempool ev => rfl
  | reidx => rfl
  | secret s =>
    show (t.addSecret s).1.stage = t.stage
    unfold SpkTracker.addSecret
    cases h : deriveSpk s with
    | none => rfl
    | some spk => by_cases hw : spk ∈ t.graph.watched <;> simp [hw]

theorem applyOps_stage (t : SpkTracker) (ops : List Op) :
    (applyOps t ops).stage = (opsDiffs t ops).foldl ChangeSet.merge t.stage := by
  induction ops generalizing t with
  | nil => rfl
  | cons o os ih =>
    show (applyOps (applyOp t o) os).stage = _
    simp only [opsDiffs]
    rw [List.foldl_append, ← applyOp_stage]
    exact ih (applyOp t o)

/-- C2: `take_stage` returns exactly the accumulated stage and resets it
to empty; after any sequence of mutating operations, the next drain
returns precisely the in-order merge of every diff those operations
produced — no mutation is lost between two drains. -/
theorem take_stage_no_loss (t : SpkTracker) (ops : List Op) :
    t.takeStage.1 = t.stage ∧
      t.takeStage.2.stage = ChangeSet.empty ∧
      (applyOps t.takeStage.2 ops).takeStage.1 =
        (opsDiffs t.takeStage.2 ops).foldl ChangeSet.merge ChangeSet.empty :=
  ⟨rfl, rfl, applyOps_stage t.takeStage.2 ops⟩

/-- C6 (amended): with a reconstructible chain diff (one holding a
genesis checkpoint), a missing network tag makes `from_changeset` fail
with the missing-network error, while a present network tag makes
construction succeed; without a genesis checkpoint the chain
reconstruction error surfaces first instead. -/
theorem from_changeset_network (cs : ChangeSet)
    (hg : ∃ p ∈ cs.localChain, p.1 = 0 ∧ p.2 ≠ none) :
    (cs.network = none →
      SpkTracker.fromChangeSet cs = Except.error TrackerError.missingNetwork) ∧
      ∀ n, cs.network = some n →
        SpkTracker.fromChangeSet cs =
          Except.ok
            ⟨graphFromChangeSet cs.indexedGraph,
              (cs.localChain.filter (fun p => p.2 ≠ none)).image
                (fun p => (p.1, p.2.getD 0)),
              ChangeSet.empty, ∅, n⟩ := by
  unfold SpkTracker.fromChangeSet chainFromChangeSet
  rw [if_pos hg]
  constructor
  · intro hn
    rw [hn]
  · intro n hn
    rw [hn]

/-- C6 witness: a changeset with a genesis checkpoint and no network tag
fails with the missing-network error. -/
theorem from_changeset_network_witness :
    (csNoNet.network = none →
      SpkTracker.fromChangeSet csNoNet =
        Except.error TrackerError.missingNetwork) ∧
      ∀ n, csNoNet.network = some n →
        SpkTracker.fromChangeSet csNoNet =
          Except.ok
            ⟨graphFromChangeSet csNoNet.indexedGraph,
              (csNoNet.localChain.filter (fun p => p.2 ≠ none)).image
                (fun p => (p.1, p.2.getD 0)),
              ChangeSet.empty, ∅, n⟩ :=
  from_changeset_network csNoNet (by decide)

/-- C6 counterexample: the empty changeset has no network tag, yet
`from_changeset` fails with the missing-genesis chain error — the chain
reconstruction error preempts the missing-network report. -/
theorem from_changeset_cex :
    ChangeSet.empty.network = none ∧
      SpkTracker.fromChangeSet ChangeSet.empty ≠
        Except.error TrackerError.missingNetwork ∧
      SpkTracker.fromChangeSet ChangeSet.empty =
        Except.error TrackerError.missingGenesis := by decide

/-- C7: secrets never reach a changeset — `add_secret` leaves the staged
changeset untouched, and a tracker rebuilt from any changeset carries no
secrets. -/
theorem secrets_not_persisted (t : SpkTracker) (s : ℕ) (cs : ChangeSet)
    (t' : SpkTracker) (h : SpkTracker.fromChangeSet cs = Except.ok t') :
    (t.addSecret s).1.stage = t.stage ∧ t'.secrets = ∅ := by
  constructor
  · unfold SpkTracker.addSecret
    cases deriveSpk s with
    | none => rfl
    | some spk => by_cases hw : spk ∈ t.graph.watched <;> simp [hw]
  · unfold SpkTracker.fromChangeSet at h
    cases hc : chainFromChangeSet cs.localChain with
    | error e =>
      rw [hc] at h
      exact absurd h (by simp)
    | ok chain =>
      rw [hc] at h
      cases hn : cs.network with
      | none =>
        rw [hn] at h
        exact absurd h (by simp)
      | some n =>
        rw [hn] at h
        rw [← Except.ok.inj h]

/-- C7 witness: adding secret 3 to a fresh tracker leaves the stage
untouched, and the tracker rebuilt from `csC7` has no secrets. -/
theorem secrets_not_persisted_witness :
    ((SpkTracker.new 0 5).addSecret 3).1.stage = (SpkTracker.new 0 5).stage ∧
      trackerC7.secrets = ∅ :=
  secrets_not_persisted (SpkTracker.new 0 5) 3 csC7 trackerC7 (by decide)

theorem reindex_noop (u : SpkTracker)
    (h : u.graph.computeIndexed \ u.graph.indexed = ∅) :
    u.reindex = (u, false) := by
  unfold SpkTracker.reindex
  rw [h, Finset.union_empty]
  have hcs : graphCS ⟨∅, ∅, ∅, ∅, ∅⟩ = ChangeSet.empty := rfl
  rw [hcs, changeset_merge_empty_right]
  have hb : (!ChangeSet.empty.isEmpty) = false := by decide
  rw [hb]

/-- C8: reindex is idempotent — immediately re-running `reindex` with no
intervening relevance changes returns false and changes nothing, in
particular the staged changeset. -/
theorem reindex_idempotent (t : SpkTracker) :
    t.reindex.1.reindex = (t.reindex.1, false) := by
  apply reindex_noop
  apply Finset.eq_empty_of_forall_not_mem
  intro x hx
  rw [Finset.mem_sdiff] at hx
  exact hx.2 (Finset.mem_union_right _ (Finset.mem_sdiff.mpr
    ⟨hx.1, fun hxi => hx.2 (Finset.mem_union_left _ hxi)⟩))

/-- C9 (amended): the stage immediately after `new` is exactly the
genesis chain changeset recording the genesis checkpoint — it is not
empty, and an immediate `take_stage` returns that genesis diff. -/
theorem new_stage_is_genesis (network ghash : ℕ) :
    (SpkTracker.new network ghash).stage = chainCS {(0, some ghash)} ∧
      (SpkTracker.new network ghash).takeStage.1 = chainCS {(0, some ghash)} ∧
      (SpkTracker.new network ghash).stage.isEmpty = false := by
  have h1 : (SpkTracker.new network ghash).stage = chainCS {(0, some ghash)} :=
    changeset_merge_empty_left _
  refine ⟨h1, h1, ?_⟩
  rw [h1, ChangeSet.isEmpty, decide_eq_false_iff_not]
  intro hEq
  exact Finset.singleton_ne_empty _ (congrArg ChangeSet.localChain hEq)

/-- C9 counterexample: right after `new`, the stage holds the genesis
checkpoint diff, so it is not empty and an immediate drain returns a
non-empty changeset. -/
theorem new_stage_not_empty_cex :
    (SpkTracker.new 0 5).stage.isEmpty = false ∧
      (SpkTracker.new 0 5).takeStage.1 ≠ ChangeSet.empty := by decide

/-- C10: `consume_mempool_event` is total — no error value exists in its
result. It applies the unconfirmed batch first and the evicted batch
second, merges both diffs into the stage in that order, and leaves every
other field (chain, secrets, network) untouched. -/
theorem mempool_event_infallible (t : SpkTracker) (ev : MempoolEvent) :
    t.consumeMempoolEvent ev =
      { t with
          graph := (batchInsertEvicted
            (batchInsertUnconfirmed t.graph ev.update).1 ev.evicted).1
          stage := (t.stage.merge
            (graphCS (batchInsertUnconfirmed t.graph ev.update).2)).merge
              (graphCS (batchInsertEvicted
                (batchInsertUnconfirmed t.graph ev.update).1 ev.evicted).2) } :=
  rfl

end SpkTrack
